import Mathlib

/-!
Shallow embedding of the monad-watcher bot (`bot.py`, `config.py`) and
verification of the specification's claims about it.

Conventions:
  * Persisted JSON documents are modelled by the inductive `JVal`.
  * Python strings are Lean `String`s; ISO timestamps are compared with the
    lexicographic `String` order, exactly as Python compares them with `>`.
  * The Python `set` of processed transaction hashes is modelled by a
    duplicate-free `List String`; the list records insertion order, while
    membership gives the set semantics.  The *iteration* order that Python's
    `list(s)` produces is unspecified, so wherever the code enumerates the
    set it is modelled by an explicit enumeration function `enum`.
-/

namespace MonadWatcher

/-- A JSON value, as produced or consumed by `json.dump` / `json.load`. -/
inductive JVal where
  | str (s : String)
  | arr (items : List JVal)
  | obj (fields : List (String × JVal))

/-- Lookup of a key in a JSON object's field list (Python `dict.get`). -/
def lookupField : List (String × JVal) → String → Option JVal
  | [], _ => none
  | (k, v) :: rest, key => if k = key then some v else lookupField rest key

/-! ## StateStore (bot.py lines 18-52) -/

/-- Embeds `save_state` (bot.py 32-37): the document written to `state.json`
is the object `\x7b"last_polled_time": timestamp_str\x7d`. -/
def save_state (timestamp_str : String) : JVal :=
  .obj [("last_polled_time", .str timestamp_str)]

/-- Embeds `load_state` (bot.py 18-30): `none` models a missing or unreadable
file; otherwise the value is `data.get("last_polled_time")`. -/
def load_state (file : Option JVal) : Option JVal :=
  match file with
  | none => none
  | some (.obj fields) => lookupField fields "last_polled_time"
  | some _ => none

/-- Embeds `save_processed_txs` (bot.py 49-52): `json.dump(list(s))`, where
`enum` is the enumeration `list(s)` of the set. -/
def save_processed_txs (enum : List String) : JVal :=
  .arr (enum.map .str)

/-- Embeds `load_processed_txs` (bot.py 39-47): `set(json.load(f))`, with a
missing or unreadable file giving the empty set.  The resulting list
represents the set by membership. -/
def load_processed_txs (file : Option JVal) : List String :=
  match file with
  | none => []
  | some (.arr items) =>
      items.filterMap (fun v => match v with | .str s => some s | _ => none)
  | some _ => []

/-! ## escape_markdown (bot.py 54-61)

The Python source iterates over the raw string
`r'_*\[\]()~`>#+\-=|\x7b\x7d.!'`; because it is a *raw* string the
backslashes of `\[`, `\]` and `\-` are literal characters, so the character
`\` itself occurs three times in the iteration, at positions 2, 4 and 13. -/

/-- The backslash character used as the escape marker. -/
def bs : Char := Char.ofNat 92

/-- The exact character sequence of the Python raw string
`r'_*\[\]()~`>#+\-=|\x7b\x7d.!'` that `escape_markdown` iterates over
(backtick is code 96, the braces are codes 123 and 125). -/
def reservedOrder : List Char :=
  ['_', '*', bs, '[', bs, ']', '(', ')', '~', Char.ofNat 96, '>', '#', '+',
   bs, '-', '=', '|', Char.ofNat 123, Char.ofNat 125, '.', '!']

/-- One pass `text = text.replace(ch, "\\" + ch)` for a single character. -/
def escOne (t : List Char) (c : Char) : List Char :=
  t.flatMap (fun x => if x = c then [bs, c] else [x])

/-- Embeds `escape_markdown` (bot.py 54-61): the fold of the replace passes
over `reservedOrder`, in order. -/
def escape_markdown (t : List Char) : List Char :=
  reservedOrder.foldl escOne t

/-- The 18 characters reserved by the MarkdownV2 dialect (the spec's list
`_ * [ ] ( ) ~ \x60 > # + - = | \x7b \x7d . !`). -/
def mdReserved : List Char :=
  ['_', '*', '[', ']', '(', ')', '~', Char.ofNat 96, '>', '#', '+', '-',
   '=', '|', Char.ofNat 123, Char.ofNat 125, '.', '!']

/-- A text is well escaped for the markup dialect when scanning it left to
right: an escape marker consumes the next character, and no reserved
character appears unconsumed (a trailing lone marker is also ill-formed). -/
def wellEscaped : List Char → Bool
  | [] => true
  | [x] => if x = bs then false else decide (x ∉ mdReserved)
  | x :: y :: rest =>
      if x = bs then wellEscaped rest
      else if x ∈ mdReserved then false
      else wellEscaped (y :: rest)

/-! ## send_telegram_notification (bot.py 63-143)

The transport is modelled by the list of HTTP responses the endpoint will
return to successive POSTs.  A response body is either unparseable (so
`await resp.json()` raises) or a parsed body carrying an optional
`parameters.retry_after` value (`none` models both a missing `parameters`
object and a missing `retry_after` key, since
`data.get('parameters', \x7b\x7d).get('retry_after', 30)` treats them alike). -/

/-- Parse outcome of a 429 response body. -/
inductive Body where
  | unparseable
  | parsed (retry_after : Option Nat)
deriving DecidableEq

/-- One HTTP response from the notification endpoint. -/
structure Resp where
  status : Nat
  body : Body
deriving DecidableEq

/-- Observable behaviour of one `send_telegram_notification` call tree:
how many POSTs were issued and which backoff sleeps were performed. -/
structure SendRes where
  posts : Nat
  waits : List Nat
deriving DecidableEq

/-- Embeds `send_telegram_notification` (bot.py 63-143).  `retry_after > 0`
triggers the initial backoff sleep (line 67-69).  On 200 the send succeeds;
on 429 with a parseable body the function recurses with the extracted
`retry_after` (default 30, lines 135-138); on 429 with an unparseable body
the `resp.json()` exception is caught by the handler at line 142 and the
send ends with no retry; any other status is a failure with no retry.
An empty response list models a transport exception before a response. -/
def send_telegram_notification (resps : List Resp) (retry_after : Nat) : SendRes :=
  let waits0 : List Nat := if retry_after > 0 then [retry_after] else []
  match resps with
  | [] => { posts := 0, waits := waits0 }
  | r :: rest =>
      if r.status = 200 then { posts := 1, waits := waits0 }
      else if r.status = 429 then
        match r.body with
        | .unparseable => { posts := 1, waits := waits0 }
        | .parsed ra =>
            let next := send_telegram_notification rest (ra.getD 30)
            { posts := 1 + next.posts, waits := waits0 ++ next.waits }
      else { posts := 1, waits := waits0 }

/-! ## The poll loop (bot.py 145-208) -/

/-- A row returned by the transfers query; the loop reads only
`tx_hash` and `created_at` (`none` models a missing key). -/
structure Rec where
  tx_hash : Option String
  created_at : Option String
deriving DecidableEq

/-- The identifier under which a row is processed:
`row.get('tx_hash', '')` (bot.py 175). -/
def txId (r : Rec) : String := r.tx_hash.getD ""

/-- The creation timestamp of a row as a string, empty when absent:
used to mirror `row.get("created_at")` together with `ctruthy`. -/
def ctime (r : Rec) : String := r.created_at.getD ""

/-- Python truthiness of `row.get("created_at")`: `None` and `""` are
falsy, every other string is truthy (bot.py 192 `if ctime and ...`). -/
def ctruthy (r : Rec) : Bool := decide (ctime r ≠ "")

/-- In-cycle state of the row loop (bot.py 172-193): the processed set in
insertion order, the trace of rows actually sent, and `new_max_time`. -/
structure RowSt where
  processed : List String
  sends : List Rec
  newMax : Option String
deriving DecidableEq

/-- Python's `<` on strings: lexicographic comparison of the code-point
sequences (Lean's lexicographic order on `List Char`). -/
def pyStrLt (a b : String) : Prop := a.data < b.data

instance : DecidableRel pyStrLt :=
  fun a b => inferInstanceAs (Decidable (a.data < b.data))

/-- Python's `<=` on strings, likewise by code points. -/
def pyStrLe (a b : String) : Prop := a.data ≤ b.data

instance : DecidableRel pyStrLe :=
  fun a b => inferInstanceAs (Decidable (a.data ≤ b.data))

/-- The `new_max_time` update (bot.py 191-193):
`if ctime and (new_max_time is None or ctime > new_max_time)`. -/
def updMax (m : Option String) (r : Rec) : Option String :=
  if ctruthy r then
    match m with
    | none => some (ctime r)
    | some mx => if pyStrLt mx (ctime r) then some (ctime r) else some mx
  else m

/-- One iteration of the row loop (bot.py 174-193): skip when the id is
already processed, otherwise send, add the id to the set, persist, and
update `new_max_time`. -/
def processRow (rs : RowSt) (r : Rec) : RowSt :=
  if txId r ∈ rs.processed then rs
  else
    { processed := rs.processed ++ [txId r]
      sends := rs.sends ++ [r]
      newMax := updMax rs.newMax r }

/-- The whole row loop, from an arbitrary in-cycle state. -/
def foldRows (data : List Rec) (rs : RowSt) : RowSt :=
  data.foldl processRow rs

/-- Embeds `set(list(processed_txs)[-500:])` (bot.py 201): keep the last
500 elements of the enumeration of the set. -/
def prunePy {α : Type} (enumerated : List α) : List α :=
  enumerated.drop (enumerated.length - 500)

/-- Persistent loop state across cycles: the processed set (insertion
order) and `last_polled_time`. -/
structure St where
  processed : List String
  cursor : String
deriving DecidableEq

/-- One successful cycle body (bot.py 161-202), given the fetched `data`
and the unspecified set-iteration order `enum` used by `list(processed_txs)`
in the prune step.  Returns the new persistent state and the trace of rows
sent this cycle.  When `data` is empty the entire `if data:` block is
skipped. -/
def cycleOk (enum : List String → List String) (data : List Rec) (st : St) :
    St × List Rec :=
  if data.isEmpty then (st, [])
  else
    let rs := foldRows data { processed := st.processed, sends := [], newMax := none }
    let cursor :=
      match rs.newMax with
      | none => st.cursor
      | some m => if m = "" then st.cursor else m
    let processed :=
      if rs.processed.length > 1000 then prunePy (enum rs.processed)
      else rs.processed
    ({ processed := processed, cursor := cursor }, rs.sends)

/-- The outcome of one trip through the `while True:` body: a successful
fetch with data, a fetch that raises (`SourceUnavailable`), or an
exception raised while processing row `k` (before that row's effects). -/
inductive CycleInput where
  | ok (data : List Rec)
  | failFetch
  | failAt (data : List Rec) (k : Nat)

/-- One trip through the `while True:` body including the
`except Exception` handler (bot.py 159-208): a cycle that raises is caught
at the cycle boundary, keeping whatever persistent effects had already
taken place; `last_polled_time` is only assigned after the row loop, so a
mid-cycle exception leaves the cursor untouched. -/
def runCycleInput (enum : List String → List String) (i : CycleInput) (st : St) : St :=
  match i with
  | .ok data => (cycleOk enum data st).1
  | .failFetch => st
  | .failAt data k =>
      { processed :=
          (foldRows (data.take k)
            { processed := st.processed, sends := [], newMax := none }).processed
        cursor := st.cursor }

/-- The poll loop run over a finite schedule of cycle outcomes (the
`while True:` loop never exits on its own; a schedule prefix models any
finite observation of it). -/
def runLoop (enum : List String → List String) (inputs : List CycleInput) (st : St) : St :=
  inputs.foldl (fun s i => runCycleInput enum i s) st

/-! ## Startup (bot.py 145-157) -/

/-- Observable effects of startup. -/
structure StartupResult where
  processed : List String
  last_polled : String
  stateFileAfter : JVal

/-- Embeds the startup sequence (bot.py 150-157): load the processed set,
set `last_polled_time` to the current time, and persist the current time.
The persisted state file is an argument because it exists on disk, but the
code never reads it here: `load_state` is not called. -/
def startup (stateFile processedFile : Option JVal) (now : String) : StartupResult :=
  { processed := load_processed_txs processedFile
    last_polled := now
    stateFileAfter := save_state now }

/-! ## Crash model for `save_state` (bot.py 32-37) -/

/-- On-disk condition of `state.json`: absent, torn (present but not a
complete JSON document, e.g. truncated-empty), or a complete document. -/
inductive DiskDoc where
  | absent
  | torn
  | doc (v : JVal)

/-- Primitive file-system steps observable by a crash. -/
inductive FileOp where
  | truncate
  | writeAll (v : JVal)

/-- Effect of one primitive step on the disk: `open(path, "w")` truncates
the file to empty (not valid JSON), a completed `json.dump` leaves the
document. -/
def applyOp (d : DiskDoc) : FileOp → DiskDoc
  | .truncate => .torn
  | .writeAll v => .doc v

/-- The primitive steps performed by `save_state` (bot.py 36-37):
`open(STATE_FILE, "w")` then `json.dump(...)` — a direct overwrite with no
temporary file and no rename. -/
def save_state_ops (timestamp_str : String) : List FileOp :=
  [.truncate, .writeAll (save_state timestamp_str)]

/-- All disk states a crash can expose while running `ops` from `init`:
the state before each step and after the last. -/
def crashStates (init : DiskDoc) : List FileOp → List DiskDoc
  | [] => [init]
  | op :: rest => init :: crashStates (applyOp init op) rest

/-- Reading `state.json` from a disk condition: a torn file makes
`json.load` raise, which `load_state`'s handler turns into `None`. -/
def load_state_disk (d : DiskDoc) : Option JVal :=
  match d with
  | .absent => none
  | .torn => none
  | .doc v => load_state (some v)

/-! ## Derived notions used by the statements -/

/-- The creation timestamps that the row loop actually feeds into
`new_max_time`: those of rows with a truthy `created_at`. -/
def tctimes (l : List Rec) : List String :=
  (l.filter (fun r => ctruthy r)).map ctime

/-- `m` is the maximum of the list `l` under Python string comparison
(`none` exactly when `l` is empty). -/
def IsMaxOf (m : Option String) (l : List String) : Prop :=
  match m with
  | none => l = []
  | some mx => mx ∈ l ∧ ∀ t ∈ l, pyStrLe t mx

/-- A processed set holding 1000 prior identifiers, none of them the empty
string (used to drive the prune threshold in a concrete run). -/
def prevThousand : List String := (List.range 1000).map (fun n => Nat.repr n)

/-- A fetched row carrying no `tx_hash` key. -/
def hashlessRowA : Rec := { tx_hash := none, created_at := some "2026-01-01T00:00:01+00:00" }

/-- A second fetched row carrying no `tx_hash` key, from a later cycle. -/
def hashlessRowB : Rec := { tx_hash := none, created_at := some "2026-01-01T00:00:02+00:00" }

/-- A concrete two-row batch used to witness the cursor-advance claim. -/
def c5data : List Rec :=
  [{ tx_hash := some "a", created_at := some "2026-01-01T00:00:03+00:00" },
   { tx_hash := some "b", created_at := some "2026-01-01T00:00:04+00:00" }]

/-- A concrete pre-cycle state used to witness the cursor-advance claim. -/
def c5st : St := { processed := [], cursor := "2026-01-01T00:00:00+00:00" }

/-! ## Helper lemmas -/

theorem cycleOk_cons (enum : List String → List String) (r0 : Rec)
    (rest : List Rec) (st : St) :
    cycleOk enum (r0 :: rest) st =
      (let rs := foldRows (r0 :: rest)
        { processed := st.processed, sends := [], newMax := none }
       ({ processed :=
            if rs.processed.length > 1000 then prunePy (enum rs.processed)
            else rs.processed
          cursor :=
            match rs.newMax with
            | none => st.cursor
            | some m => if m = "" then st.cursor else m }, rs.sends)) := rfl

theorem pyStrLe_refl (a : String) : pyStrLe a a := le_refl _

theorem pyStrLe_of_lt {a b : String} (h : pyStrLt a b) : pyStrLe a b := le_of_lt h

theorem pyStrLe_trans {a b c : String} (h1 : pyStrLe a b) (h2 : pyStrLe b c) :
    pyStrLe a c := le_trans h1 h2

theorem pyStrLe_of_not_lt {a b : String} (h : ¬ pyStrLt a b) : pyStrLe b a :=
  le_of_not_lt h

theorem tctimes_append (l₁ l₂ : List Rec) :
    tctimes (l₁ ++ l₂) = tctimes l₁ ++ tctimes l₂ := by
  simp [tctimes, List.filter_append]

theorem mem_tctimes_ne_empty {t : String} {l : List Rec} (h : t ∈ tctimes l) :
    t ≠ "" := by
  unfold tctimes at h
  obtain ⟨r, hr, rfl⟩ := List.mem_map.mp h
  have := (List.mem_filter.mp hr).2
  simpa [ctruthy] using this

theorem foldRows_nil (rs : RowSt) : foldRows [] rs = rs := rfl

theorem foldRows_cons (r : Rec) (data : List Rec) (rs : RowSt) :
    foldRows (r :: data) rs = foldRows data (processRow rs r) := rfl

theorem processRow_maxInv (rs : RowSt) (r : Rec)
    (h : IsMaxOf rs.newMax (tctimes rs.sends)) :
    IsMaxOf (processRow rs r).newMax (tctimes (processRow rs r).sends) := by
  unfold processRow
  by_cases hmem : txId r ∈ rs.processed
  · simpa [hmem]
  · rw [if_neg hmem]
    simp only
    rw [tctimes_append]
    unfold updMax
    by_cases hct : ctruthy r
    · have htc : tctimes [r] = [ctime r] := by simp [tctimes, hct]
      rw [htc]
      simp only [hct, if_true]
      cases hm : rs.newMax with
      | none =>
          rw [hm] at h
          dsimp only [IsMaxOf] at h ⊢
          rw [h, List.nil_append]
          refine ⟨List.mem_singleton_self _, ?_⟩
          intro t ht
          rw [List.mem_singleton.mp ht]
          exact pyStrLe_refl _
      | some mx =>
          rw [hm] at h
          dsimp only [IsMaxOf] at h ⊢
          obtain ⟨hmemx, hbound⟩ := h
          by_cases hlt : pyStrLt mx (ctime r)
          · rw [if_pos hlt]
            dsimp only [IsMaxOf]
            refine ⟨List.mem_append_right _ (List.mem_singleton_self _), ?_⟩
            intro t ht
            rcases List.mem_append.mp ht with h1 | h1
            · exact pyStrLe_trans (hbound t h1) (pyStrLe_of_lt hlt)
            · rw [List.mem_singleton.mp h1]
              exact pyStrLe_refl _
          · rw [if_neg hlt]
            dsimp only [IsMaxOf]
            refine ⟨List.mem_append_left _ hmemx, ?_⟩
            intro t ht
            rcases List.mem_append.mp ht with h1 | h1
            · exact hbound t h1
            · rw [List.mem_singleton.mp h1]
              exact pyStrLe_of_not_lt hlt
    · have htc : tctimes [r] = [] := by simp [tctimes, hct]
      rw [htc, List.append_nil]
      simp only [hct, if_false]
      exact h

theorem foldRows_maxInv (data : List Rec) :
    ∀ rs : RowSt, IsMaxOf rs.newMax (tctimes rs.sends) →
      IsMaxOf (foldRows data rs).newMax (tctimes (foldRows data rs).sends) := by
  induction data with
  | nil => intro rs h; simpa [foldRows_nil]
  | cons r data ih =>
      intro rs h
      rw [foldRows_cons]
      exact ih _ (processRow_maxInv rs r h)

theorem foldRows_sends_sub (data : List Rec) :
    ∀ (rs : RowSt) (x : Rec), x ∈ (foldRows data rs).sends →
      x ∈ rs.sends ∨ x ∈ data := by
  induction data with
  | nil => intro rs x h; exact Or.inl (by simpa [foldRows_nil] using h)
  | cons r data ih =>
      intro rs x h
      rw [foldRows_cons] at h
      rcases ih _ x h with h1 | h1
      · unfold processRow at h1
        by_cases hmem : txId r ∈ rs.processed
        · rw [if_pos hmem] at h1; exact Or.inl h1
        · rw [if_neg hmem] at h1
          simp only at h1
          rcases List.mem_append.mp h1 with h2 | h2
          · exact Or.inl h2
          · exact Or.inr (by simp [List.mem_singleton.mp h2])
      · exact Or.inr (List.mem_cons_of_mem _ h1)

theorem foldRows_processed_mono (data : List Rec) :
    ∀ (rs : RowSt) (x : String), x ∈ rs.processed →
      x ∈ (foldRows data rs).processed := by
  induction data with
  | nil => intro rs x h; simpa [foldRows_nil]
  | cons r data ih =>
      intro rs x h
      rw [foldRows_cons]
      apply ih
      unfold processRow
      by_cases hmem : txId r ∈ rs.processed
      · rwa [if_pos hmem]
      · rw [if_neg hmem]
        simp only
        exact List.mem_append_left _ h

theorem tctimes_all_truthy {l : List Rec} (h : ∀ r ∈ l, ctruthy r = true) :
    tctimes l = l.map ctime := by
  unfold tctimes
  rw [List.filter_eq_self.mpr h]

/-! ## Claim theorems -/

set_option maxRecDepth 100000

/-- C1: the claim says the poll loop loads the persisted cursor at startup
and only defaults to the current time when none exists.  The code never
calls `load_state`: even when a readable cursor is persisted, `startup`
sets `last_polled_time` to the current time and overwrites the state file
with it, so a restart always resets an existing cursor to now. -/
theorem claim_C1 :
    load_state (some (save_state "2024-01-01T00:00:00+00:00")) =
      some (JVal.str "2024-01-01T00:00:00+00:00") ∧
    (startup (some (save_state "2024-01-01T00:00:00+00:00")) none
        "2025-06-01T00:00:00+00:00").last_polled = "2025-06-01T00:00:00+00:00" ∧
    (startup (some (save_state "2024-01-01T00:00:00+00:00")) none
        "2025-06-01T00:00:00+00:00").stateFileAfter =
      save_state "2025-06-01T00:00:00+00:00" ∧
    "2025-06-01T00:00:00+00:00" ≠ "2024-01-01T00:00:00+00:00" := by
  refine ⟨rfl, rfl, rfl, by decide⟩

/-- C2: the claim says every reserved character in the output is preceded by
exactly one escape marker and no marker is doubled by later substitutions.
Because the iterated reserved string contains the backslash itself at
positions 2, 4 and 13, markers introduced by earlier passes are doubled by
each later backslash pass: the input `"_"` yields eight backslashes followed
by an unescaped `_`, and `"("` gets two markers.  Characters replaced after
the last backslash pass, such as `.`, are escaped correctly. -/
theorem claim_C2 :
    escape_markdown ['_'] = List.replicate 8 bs ++ ['_'] ∧
    wellEscaped (escape_markdown ['_']) = false ∧
    escape_markdown ['('] = [bs, bs, '('] ∧
    escape_markdown ['1', '.', '5'] = ['1', bs, '.', '5'] := by
  decide

/-- C3: the claim says pruning keeps precisely the 500 most recently
inserted identifiers.  The code prunes `set(list(processed_txs)[-500:])`,
i.e. the last 500 of the set's unspecified iteration order.  With 1001
identifiers inserted in the order `0, 1, ..., 1000` (so `1000` is the most
recent) and an iteration order that happens to be the reverse of insertion
order, the post-prune size is indeed exactly 500, but the most recently
inserted identifier `1000` is evicted while the oldest identifier `0`
survives — the survivors are not the 500 most recently inserted. -/
theorem claim_C3 :
    (prunePy ((List.range 1001).reverse)).length = 500 ∧
    1000 ∉ prunePy ((List.range 1001).reverse) ∧
    1000 ∈ (List.range 1001).drop 501 ∧
    0 ∈ prunePy ((List.range 1001).reverse) ∧
    0 ∉ (List.range 1001).drop 501 := by
  decide

/-- C4 counterexample: the claim says an unparseable 429 body defaults
`retry_after` to 30, waits, and retries.  In the code `await resp.json()`
raises on an unparseable body and the exception handler ends the send:
given a 429 with unparseable body followed by a 200, only one POST is made
and no backoff wait happens, instead of the claimed wait-30-and-retry. -/
theorem claim_C4_counterexample :
    send_telegram_notification
        [{ status := 429, body := Body.unparseable },
         { status := 200, body := Body.parsed none }] 0 =
      { posts := 1, waits := [] } ∧
    ¬ (send_telegram_notification
        [{ status := 429, body := Body.unparseable },
         { status := 200, body := Body.parsed none }] 0 =
      { posts := 2, waits := [30] }) := by
  decide

/-- C4 (amended): on HTTP 429 with a parseable body the sender extracts
`parameters.retry_after`, defaulting to 30 only when the key is absent,
waits that long and retries; an unparseable 429 body is caught and the send
fails with no retry.  In the scenario 429 with retry_after=5 then 200, the
record is posted exactly twice with a single 5-second wait; and a row whose
id is not yet processed has its id appended to the processed set exactly
once and is sent exactly once. -/
theorem claim_C4 :
    send_telegram_notification
        [{ status := 429, body := Body.parsed none },
         { status := 200, body := Body.parsed none }] 0 =
      { posts := 2, waits := [30] } ∧
    send_telegram_notification
        [{ status := 429, body := Body.parsed (some 5) },
         { status := 200, body := Body.parsed none }] 0 =
      { posts := 2, waits := [5] } ∧
    (∀ (rs : RowSt) (r : Rec), txId r ∉ rs.processed →
      (processRow rs r).processed = rs.processed ++ [txId r] ∧
      (processRow rs r).sends = rs.sends ++ [r]) := by
  refine ⟨by decide, by decide, ?_⟩
  intro rs r h
  rw [processRow, if_neg h]
  exact ⟨rfl, rfl⟩

/-- C4 witness: the processed-once part of the amended claim instantiated
at a fresh row. -/
theorem claim_C4_witness :
    txId { tx_hash := some "h1", created_at := some "t1" } ∉
      ({ processed := [], sends := [], newMax := none } : RowSt).processed ∧
    ((processRow { processed := [], sends := [], newMax := none }
        { tx_hash := some "h1", created_at := some "t1" }).processed =
      ({ processed := [], sends := [], newMax := none } : RowSt).processed ++
        [txId { tx_hash := some "h1", created_at := some "t1" }] ∧
    (processRow { processed := [], sends := [], newMax := none }
        { tx_hash := some "h1", created_at := some "t1" }).sends =
      ({ processed := [], sends := [], newMax := none } : RowSt).sends ++
        [{ tx_hash := some "h1", created_at := some "t1" }]) :=
  ⟨by decide, claim_C4.2.2 _ _ (by decide)⟩

/-- C6: a record whose identifier is already in the processed set at the
time it is iterated is skipped entirely: the send trace, the running
`new_max_time`, and the processed set are all unchanged by it. -/
theorem claim_C6 (rs : RowSt) (r : Rec) (h : txId r ∈ rs.processed) :
    (processRow rs r).sends = rs.sends ∧
    (processRow rs r).newMax = rs.newMax ∧
    (processRow rs r).processed = rs.processed := by
  rw [processRow, if_pos h]
  exact ⟨rfl, rfl, rfl⟩

/-- C6 witness: the skip behaviour at a concrete already-processed row. -/
theorem claim_C6_witness :
    txId { tx_hash := some "a", created_at := some "t" } ∈
      ({ processed := ["a"], sends := [], newMax := none } : RowSt).processed ∧
    ((processRow { processed := ["a"], sends := [], newMax := none }
        { tx_hash := some "a", created_at := some "t" }).sends = [] ∧
    (processRow { processed := ["a"], sends := [], newMax := none }
        { tx_hash := some "a", created_at := some "t" }).newMax = none ∧
    (processRow { processed := ["a"], sends := [], newMax := none }
        { tx_hash := some "a", created_at := some "t" }).processed = ["a"]) :=
  ⟨by decide, claim_C6 _ _ (by decide)⟩

/-- C7: a cycle in which the source query raises leaves the cursor and the
processed set exactly as they were, and the loop keeps executing the
remaining cycles of any schedule around the failure (it never terminates on
error); a cycle that raises while processing row `k` keeps the cursor at
its pre-cycle value, since `last_polled_time` is only assigned after the
row loop completes. -/
theorem claim_C7 :
    (∀ (enum : List String → List String) (st : St),
        runCycleInput enum CycleInput.failFetch st = st) ∧
    (∀ (enum : List String → List String) (pre rest : List CycleInput) (st : St),
        runLoop enum (pre ++ CycleInput.failFetch :: rest) st =
          runLoop enum rest (runLoop enum pre st)) ∧
    (∀ (enum : List String → List String) (data : List Rec) (k : Nat) (st : St),
        (runCycleInput enum (CycleInput.failAt data k) st).cursor = st.cursor) := by
  refine ⟨fun enum st => rfl, ?_, fun enum data k st => rfl⟩
  intro enum pre rest st
  rw [runLoop, List.foldl_append, List.foldl_cons]
  rfl

/-- C8: persisting the cursor and reloading it returns the same timestamp,
and persisting the processed set and reloading it returns a set with
exactly the same members. -/
theorem claim_C8 :
    (∀ x : String, load_state (some (save_state x)) = some (JVal.str x)) ∧
    (∀ (enum : List String) (y : String),
        y ∈ load_processed_txs (some (save_processed_txs enum)) ↔ y ∈ enum) := by
  constructor
  · intro x
    rfl
  · intro enum y
    unfold load_processed_txs save_processed_txs
    dsimp only
    rw [List.filterMap_map]
    have : ∀ l : List String,
        l.filterMap (fun s =>
          (fun v => match v with | JVal.str s => some s | _ => none) (JVal.str s)) = l := by
      intro l
      induction l with
      | nil => rfl
      | cons a l ih => simp [List.filterMap_cons, ih]
    rw [Function.comp_def, this]

/-- C9: the claim says `save_state` overwrites the cursor atomically via
write-to-temp-then-rename.  The code writes `state.json` in place:
`open(STATE_FILE, "w")` truncates the file before `json.dump` rewrites it,
so a crash between the two steps exposes a torn file that holds neither the
old nor the new document; `load_state` then swallows the parse failure and
reports no cursor at all. -/
theorem claim_C9 :
    crashStates (DiskDoc.doc (save_state "2024-01-01T00:00:00+00:00"))
        (save_state_ops "2024-01-02T00:00:00+00:00") =
      [DiskDoc.doc (save_state "2024-01-01T00:00:00+00:00"), DiskDoc.torn,
        DiskDoc.doc (save_state "2024-01-02T00:00:00+00:00")] ∧
    DiskDoc.torn ∈ crashStates (DiskDoc.doc (save_state "2024-01-01T00:00:00+00:00"))
        (save_state_ops "2024-01-02T00:00:00+00:00") ∧
    (∀ v : JVal, DiskDoc.torn ≠ DiskDoc.doc v) ∧
    load_state_disk DiskDoc.torn = none := by
  refine ⟨rfl, ?_, ?_, rfl⟩
  · exact List.Mem.tail _ (List.Mem.head _)
  · intro v h
    exact DiskDoc.noConfusion h

/-- C5: in a successful cycle where at least one record is sent and all
fetched rows carry a truthy creation timestamp, the cursor persisted at the
end of the cycle is the maximum creation timestamp among the records sent
in that cycle (it occurs among them and bounds them all); and under the
fetch precondition that every fetched row's creation time is at or after
the pre-cycle cursor, the cursor never decreases. -/
theorem claim_C5 (enum : List String → List String) (data : List Rec) (st : St)
    (hct : ∀ r ∈ data, ctruthy r = true)
    (hge : ∀ r ∈ data, pyStrLe st.cursor (ctime r))
    (hsent : (cycleOk enum data st).2 ≠ []) :
    (cycleOk enum data st).1.cursor ∈ (cycleOk enum data st).2.map ctime ∧
    (∀ t ∈ (cycleOk enum data st).2.map ctime,
        pyStrLe t (cycleOk enum data st).1.cursor) ∧
    pyStrLe st.cursor (cycleOk enum data st).1.cursor := by
  cases data with
  | nil => simp [cycleOk] at hsent
  | cons r0 rest =>
      rw [cycleOk_cons] at hsent ⊢
      dsimp only at hsent ⊢
      set rs := foldRows (r0 :: rest)
        { processed := st.processed, sends := [], newMax := none } with hrsdef
      have inv : IsMaxOf rs.newMax (tctimes rs.sends) := by
        have inv0 : IsMaxOf (none : Option String) (tctimes ([] : List Rec)) := by
          dsimp only [IsMaxOf, tctimes]
          rfl
        exact foldRows_maxInv _ _ inv0
      have hsub : ∀ x ∈ rs.sends, x ∈ r0 :: rest := by
        intro x hx
        rcases foldRows_sends_sub _ _ _ hx with h1 | h1
        · exact absurd h1 (List.not_mem_nil x)
        · exact h1
      have htr : ∀ x ∈ rs.sends, ctruthy x = true := fun x hx => hct x (hsub x hx)
      have heq : tctimes rs.sends = rs.sends.map ctime := tctimes_all_truthy htr
      cases hm : rs.newMax with
      | none =>
          rw [hm] at inv
          dsimp only [IsMaxOf] at inv
          rw [heq] at inv
          exact absurd (List.map_eq_nil_iff.mp inv) hsent
      | some m =>
          rw [hm] at inv
          dsimp only [IsMaxOf] at inv
          obtain ⟨hmm, hbound⟩ := inv
          have hmne : m ≠ "" := mem_tctimes_ne_empty hmm
          rw [heq] at hmm hbound
          dsimp only
          rw [if_neg hmne]
          refine ⟨hmm, hbound, ?_⟩
          obtain ⟨x, hx, hcx⟩ := List.mem_map.mp hmm
          exact hcx ▸ hge x (hsub x hx)

/-- C5 witness: the cursor-advance property instantiated at a concrete
two-row batch with ascending timestamps. -/
theorem claim_C5_witness :
    (∀ r ∈ c5data, ctruthy r = true) ∧
    (∀ r ∈ c5data, pyStrLe c5st.cursor (ctime r)) ∧
    (cycleOk id c5data c5st).2 ≠ [] ∧
    ((cycleOk id c5data c5st).1.cursor ∈ (cycleOk id c5data c5st).2.map ctime ∧
     (∀ t ∈ (cycleOk id c5data c5st).2.map ctime,
         pyStrLe t (cycleOk id c5data c5st).1.cursor) ∧
     pyStrLe c5st.cursor (cycleOk id c5data c5st).1.cursor) :=
  ⟨by decide, by decide, by decide,
    claim_C5 id c5data c5st (by decide) (by decide) (by decide)⟩

/-- C10 counterexample: the claim says that once an identifier-less record
has been sent (adding the empty-string identifier to the processed set),
every later identifier-less record — in any later cycle too — is skipped.
Starting from 1000 processed identifiers, a cycle sends an identifier-less
record, which pushes the set over the prune threshold; with a set-iteration
order that is the reverse of insertion order the prune evicts the empty
identifier, and the next cycle sends its identifier-less record again. -/
theorem claim_C10_counterexample :
    (cycleOk List.reverse [hashlessRowA]
        { processed := prevThousand, cursor := "2026-01-01T00:00:00+00:00" }).2 =
      [hashlessRowA] ∧
    (cycleOk List.reverse [hashlessRowB]
        (cycleOk List.reverse [hashlessRowA]
          { processed := prevThousand, cursor := "2026-01-01T00:00:00+00:00" }).1).2 =
      [hashlessRowB] := by
  decide

/-- C10 (amended): a fetched record with no identifier field is processed
under the default identifier, the empty string, which is then added to the
processed set; while the empty string remains in the set — in particular
for the rest of the same cycle, since the row loop only ever adds — every
identifier-less record is skipped and never sent.  Pruning may evict the
empty identifier between cycles, after which the next identifier-less
record is sent again. -/
theorem claim_C10 :
    (∀ (rs : RowSt) (r : Rec), r.tx_hash = none → "" ∉ rs.processed →
        (processRow rs r).sends = rs.sends ++ [r] ∧
        "" ∈ (processRow rs r).processed) ∧
    (∀ (rs : RowSt) (r : Rec), r.tx_hash = none → "" ∈ rs.processed →
        processRow rs r = rs) ∧
    (∀ (data : List Rec) (rs : RowSt) (x : String), x ∈ rs.processed →
        x ∈ (foldRows data rs).processed) := by
  refine ⟨?_, ?_, foldRows_processed_mono⟩
  · intro rs r h1 h2
    have htx : txId r = "" := by rw [txId, h1]; rfl
    rw [processRow, htx, if_neg h2]
    exact ⟨rfl, by simp⟩
  · intro rs r h1 h2
    have htx : txId r = "" := by rw [txId, h1]; rfl
    rw [processRow, htx, if_pos h2]

/-- C10 witness: the amended behaviour at concrete identifier-less rows —
one sent from a state without the empty identifier, one skipped from a
state that contains it. -/
theorem claim_C10_witness :
    (({ tx_hash := none, created_at := some "t" } : Rec).tx_hash = none ∧
      "" ∉ ({ processed := [], sends := [], newMax := none } : RowSt).processed ∧
      ((processRow { processed := [], sends := [], newMax := none }
          { tx_hash := none, created_at := some "t" }).sends =
        ({ processed := [], sends := [], newMax := none } : RowSt).sends ++
          [{ tx_hash := none, created_at := some "t" }] ∧
      "" ∈ (processRow { processed := [], sends := [], newMax := none }
          { tx_hash := none, created_at := some "t" }).processed)) ∧
    ("" ∈ ({ processed := [""], sends := [], newMax := none } : RowSt).processed ∧
      processRow { processed := [""], sends := [], newMax := none }
          { tx_hash := none, created_at := some "t" } =
        { processed := [""], sends := [], newMax := none }) :=
  ⟨⟨rfl, by decide, claim_C10.1 _ _ rfl (by decide)⟩,
   ⟨by decide, claim_C10.2.1 _ _ rfl (by decide)⟩⟩

end MonadWatcher
